import Mathlib

/-!
Shallow embedding of the lapdev workspace host agent
(`src/lapdev-ws/src/server.rs`) and proofs about its container-build
pipeline, lifecycle dispatch, engine client and activity probe.

Conventions of the embedding:
* Rust `String`/`&str` become Lean `String`; where character-level splitting
  matters the character list (`String.toList`) is used.
* UUIDs are modelled by their string rendering (the code only ever calls
  `to_string()` on them).
* Fallible operations return `Except`; I/O effects (file writes, `chown`,
  process spawns) are modelled as explicit event traces.
-/

namespace LapdevWs

/-- Error type of `lapdev_rpc::error::ApiError` (the crate is outside the
repository snapshot; the variants used by `server.rs` are reconstructed from
their use sites and the spec's error table). -/
inductive ApiError where
  | RepositoryInvalid (msg : String)
  | InternalError (msg : String)
  deriving DecidableEq, Repr

/-- `BuildTarget`: `Workspace { name, .. }` or `Prebuild(uuid)`.  Only the
`name` field of the `Workspace` variant is read by the functions under
verification; the UUID is modelled by its string rendering. -/
inductive BuildTarget where
  | Workspace (name : String)
  | Prebuild (id : String)
  deriving DecidableEq, Repr

/-- `RepoBuildInfo` — the unit of build work (fields used by `server.rs`). -/
structure RepoBuildInfo where
  target : BuildTarget
  osuser : String
  repo_name : String
  cpus : List Nat
  memory : Nat
  env : List (String × String)
  deriving DecidableEq, Repr

/-- `WorkspaceServer::build_repo_folder` (server.rs:751-760). -/
def build_repo_folder (info : RepoBuildInfo) : String :=
  let target := match info.target with
    | BuildTarget.Workspace name => name
    | BuildTarget.Prebuild id => id
  "/home/" ++ info.osuser ++ "/workspaces/" ++ target ++ "/" ++ info.repo_name

/-- `WorkspaceServer::repo_target_image_tag` (server.rs:657-662). -/
def repo_target_image_tag (target : BuildTarget) : String :=
  match target with
  | BuildTarget.Workspace name => name
  | BuildTarget.Prebuild id => id

/-- `WorkspaceServer::delete_image` (server.rs:848-878), abstracted over the
HTTP exchange: given the engine's response status and body, the function
succeeds unless the status differs from both 200 and 404, in which case it
returns the error built from the response body. -/
def delete_image (status : Nat) (body : String) : Except String Unit :=
  if status ≠ 200 ∧ status ≠ 404 then
    Except.error ("delete image error: " ++ body)
  else
    Except.ok ()

/-- Splits a character list at the first `'='`, returning the parts before
and after it, or `none` when no `'='` occurs.  This models Rust
`s.splitn(2, '=')` together with the `parts.len() == 2` check of
`compose_service_env` (server.rs:580-587). -/
def splitFirstEq : List Char → Option (List Char × List Char)
  | [] => none
  | c :: rest =>
      if c = '=' then some ([], rest)
      else match splitFirstEq rest with
        | some (k, v) => some (c :: k, v)
        | none => none

/-- The list-form branch body of `compose_service_env`, on one entry. -/
def splitEnvEntry (s : String) : Option (String × String) :=
  match splitFirstEq s.toList with
  | some (k, v) => some (String.mk k, String.mk v)
  | none => none

/-- `docker_compose_types::Environment`: a list of `KEY=VALUE` strings or a
mapping from key to optional scalar value.  The scalar (`SingleValue`) is
modelled by its `Display` rendering, which is all `compose_service_env`
uses of it. -/
inductive Environment where
  | list (entries : List String)
  | kvPair (pairs : List (String × Option String))
  deriving DecidableEq, Repr

/-- `WorkspaceServer::compose_service_env` (server.rs:573-594). -/
def compose_service_env (environment : Environment) : List (String × String) :=
  match environment with
  | Environment.list l => l.filterMap splitEnvEntry
  | Environment.kvPair pairs =>
      pairs.filterMap fun kv => kv.2.map fun v => (kv.1, v)

lemma splitFirstEq_append_eq (k v : List Char) (hk : '=' ∉ k) :
    splitFirstEq (k ++ '=' :: v) = some (k, v) := by
  induction k with
  | nil => simp [splitFirstEq]
  | cons c rest ih =>
      have hc : c ≠ '=' := fun h => hk (h ▸ List.mem_cons_self c rest)
      have hrest : '=' ∉ rest := fun h => hk (List.mem_cons_of_mem c h)
      simp [splitFirstEq, hc, ih hrest]

lemma splitFirstEq_no_eq (s : List Char) (hs : '=' ∉ s) :
    splitFirstEq s = none := by
  induction s with
  | nil => rfl
  | cons c rest ih =>
      have hc : c ≠ '=' := fun h => hs (h ▸ List.mem_cons_self c rest)
      have hrest : '=' ∉ rest := fun h => hs (List.mem_cons_of_mem c h)
      simp [splitFirstEq, hc, ih hrest]

lemma toList_append_eq (k v : String) :
    (k ++ "=" ++ v).toList = k.toList ++ '=' :: v.toList := by
  simp [String.toList, String.data_append]

lemma mk_toList (s : String) : String.mk s.toList = s := rfl

/-- `lapdev_common::devcontainer::DevContainerCmd`: a single command string
or an argv list (variants reconstructed from their use sites in
`server.rs`). -/
inductive DevContainerCmd where
  | Simple (cmd : String)
  | Args (cmds : List String)
  deriving DecidableEq, Repr

/-- `lapdev_common::devcontainer::DevContainerLifeCycleCmd`: a command
string, an argv list, or a mapping from compose-service name to a
`DevContainerCmd` (ordered pairs model the mapping's iteration order). -/
inductive DevContainerLifeCycleCmd where
  | Simple (cmd : String)
  | Args (cmds : List String)
  | Object (cmds : List (String × DevContainerCmd))
  deriving DecidableEq, Repr

/-- `DevContainerConfig` — the fields read by `server.rs`. -/
structure DevContainerConfig where
  service : Option String
  on_create_command : Option DevContainerLifeCycleCmd
  update_content_command : Option DevContainerLifeCycleCmd
  post_create_command : Option DevContainerLifeCycleCmd
  deriving DecidableEq, Repr

/-- `RepoComposeService` — one entry of a compose build manifest. -/
structure RepoComposeService where
  name : String
  image : String
  env : List (String × String)
  deriving DecidableEq, Repr

/-- `RepoBuildOutput`: a single image tag or a compose service manifest. -/
inductive RepoBuildOutput where
  | Image (tag : String)
  | Compose (services : List RepoComposeService)
  deriving DecidableEq, Repr

/-- `WorkspaceServer::run_devcontainer_command` (server.rs:762-795), as the
shell command line it hands to `su - {osuser} -c`: `Args` commands are
joined by single spaces.  The spawn itself is I/O; the command line is the
observable this embedding records. -/
def run_devcontainer_command (info : RepoBuildInfo) (image : String)
    (cmd : DevContainerCmd) : String :=
  let cmdStr := match cmd with
    | DevContainerCmd.Simple c => c
    | DevContainerCmd.Args cs => String.intercalate " " cs
  "podman run --rm --cpuset-cpus " ++
    String.intercalate "," (info.cpus.map toString) ++
    " -m " ++ toString info.memory ++
    "g --security-opt label=disable -v " ++ build_repo_folder info ++
    ":/workspace -w /workspace --user root --entrypoint \x22\x22 " ++
    image ++ " " ++ cmdStr

/-- `WorkspaceServer::run_lifecycle_command` (server.rs:688-741): dispatches
one lifecycle command against the build output.  Returns the function
result together with the list of container-engine `run` command lines
executed, in order.  `run_devcontainer_command` invocations are modelled as
succeeding (in the code they only fail on spawn errors; the exit status of
the container is not checked). -/
def run_lifecycle_command (info : RepoBuildInfo) (output : RepoBuildOutput)
    (config : DevContainerConfig) (cmd : DevContainerLifeCycleCmd) :
    Except String Unit × List String :=
  match output with
  | RepoBuildOutput.Compose services =>
      match cmd with
      | DevContainerLifeCycleCmd.Object cmds =>
          (Except.ok (), cmds.filterMap fun sc =>
            (services.find? fun s => s.name == sc.1).map fun s =>
              run_devcontainer_command info s.image sc.2)
      | DevContainerLifeCycleCmd.Simple c =>
          (Except.ok (), match config.service with
            | some serviceName =>
                match services.find? fun s => s.name == serviceName with
                | some s => [run_devcontainer_command info s.image (DevContainerCmd.Simple c)]
                | none => []
            | none => [])
      | DevContainerLifeCycleCmd.Args cs =>
          (Except.ok (), match config.service with
            | some serviceName =>
                match services.find? fun s => s.name == serviceName with
                | some s => [run_devcontainer_command info s.image (DevContainerCmd.Args cs)]
                | none => []
            | none => [])
  | RepoBuildOutput.Image tag =>
      match cmd with
      | DevContainerLifeCycleCmd.Object _ =>
          (Except.error "can't use object cmd for non compose", [])
      | DevContainerLifeCycleCmd.Simple c =>
          (Except.ok (), [run_devcontainer_command info tag (DevContainerCmd.Simple c)])
      | DevContainerLifeCycleCmd.Args cs =>
          (Except.ok (), [run_devcontainer_command info tag (DevContainerCmd.Args cs)])

/-- `WorkspaceServer::run_lifecycle_commands` (server.rs:664-686).  The IO
outcome of each per-phase `run_lifecycle_command` call is abstracted by
`runner` (beyond the pure dispatch, the call can fail on spawn errors); the
code discards every phase's result (`let _ = …`), and this function returns
the list of phase commands attempted, in program order. -/
def run_lifecycle_commands (runner : DevContainerLifeCycleCmd → Except String Unit)
    (config : DevContainerConfig) : List DevContainerLifeCycleCmd :=
  (match config.on_create_command with
    | some cmd => let _ := runner cmd; [cmd]
    | none => []) ++
  (match config.update_content_command with
    | some cmd => let _ := runner cmd; [cmd]
    | none => []) ++
  (match config.post_create_command with
    | some cmd => let _ := runner cmd; [cmd]
    | none => [])

/-- `WorkspaceServer::get_devcontainer` (server.rs:321-345).  The
filesystem is abstracted by `fs` (whether a path exists; the code's
`try_exists(..).unwrap_or(false)` folds I/O errors into `false`), and the
`read_to_string` + `json5::from_str` pipeline by `readParse` (read failures
become `InternalError`, parse failures `RepositoryInvalid`).  `PathBuf`
join is `/`-concatenation.  Returns the devcontainer working directory and
the parsed config, or `none` when no devcontainer file exists. -/
def get_devcontainer (fs : String → Bool)
    (readParse : String → Except ApiError DevContainerConfig)
    (info : RepoBuildInfo) : Except ApiError (Option (String × DevContainerConfig)) :=
  let folder := build_repo_folder info
  let devcontainer_folder_path := folder ++ "/.devcontainer" ++ "/devcontainer.json"
  let devcontainer_root_path := folder ++ "/.devcontainer.json"
  match
    (if fs devcontainer_folder_path then
      some (folder ++ "/.devcontainer", devcontainer_folder_path)
    else if fs devcontainer_root_path then
      some (folder, devcontainer_root_path)
    else none) with
  | none => Except.ok none
  | some (cwd, file_path) =>
      match readParse file_path with
      | Except.ok config => Except.ok (some (cwd, config))
      | Except.error e => Except.error e

/-- **C10.** `get_devcontainer` prefers `.devcontainer/devcontainer.json`:
whenever that file exists (in particular when both files exist) it is the
one read and the working directory is the `.devcontainer` subfolder; the
root-level `.devcontainer.json` is used only when the subfolder file is
absent; and when neither exists the result is `Ok(None)` (no error). -/
theorem get_devcontainer_spec (fs : String → Bool)
    (readParse : String → Except ApiError DevContainerConfig)
    (info : RepoBuildInfo) :
    (fs (build_repo_folder info ++ "/.devcontainer" ++ "/devcontainer.json") = true →
      get_devcontainer fs readParse info =
        match readParse (build_repo_folder info ++ "/.devcontainer" ++ "/devcontainer.json") with
        | Except.ok config =>
            Except.ok (some (build_repo_folder info ++ "/.devcontainer", config))
        | Except.error e => Except.error e) ∧
    (fs (build_repo_folder info ++ "/.devcontainer" ++ "/devcontainer.json") = false →
     fs (build_repo_folder info ++ "/.devcontainer.json") = true →
      get_devcontainer fs readParse info =
        match readParse (build_repo_folder info ++ "/.devcontainer.json") with
        | Except.ok config => Except.ok (some (build_repo_folder info, config))
        | Except.error e => Except.error e) ∧
    (fs (build_repo_folder info ++ "/.devcontainer" ++ "/devcontainer.json") = false →
     fs (build_repo_folder info ++ "/.devcontainer.json") = false →
      get_devcontainer fs readParse info = Except.ok none) := by
  refine ⟨?_, ?_, ?_⟩
  · intro h1
    simp only [get_devcontainer, h1, if_true]
  · intro h1 h2
    simp only [get_devcontainer, h1, h2, if_true, Bool.false_eq_true, if_false]
  · intro h1 h2
    simp only [get_devcontainer, h1, h2, Bool.false_eq_true, if_false]

theorem get_devcontainer_spec_witness :
    get_devcontainer
      (fun p => p == "/home/alice/workspaces/w1/proj/.devcontainer/devcontainer.json" ||
        p == "/home/alice/workspaces/w1/proj/.devcontainer.json")
      (fun _ => Except.ok ⟨none, none, none, none⟩)
      { target := BuildTarget.Workspace "w1", osuser := "alice",
        repo_name := "proj", cpus := [], memory := 8, env := [] } =
      Except.ok (some ("/home/alice/workspaces/w1/proj/.devcontainer",
        ⟨none, none, none, none⟩)) := by
  have h := (get_devcontainer_spec
      (fun p => p == "/home/alice/workspaces/w1/proj/.devcontainer/devcontainer.json" ||
        p == "/home/alice/workspaces/w1/proj/.devcontainer.json")
      (fun _ => Except.ok ⟨none, none, none, none⟩)
      { target := BuildTarget.Workspace "w1", osuser := "alice",
        repo_name := "proj", cpus := [], memory := 8, env := [] }).1 (by decide)
  simpa using h

/-- `docker_compose_types::AdvancedBuildStep` — the fields read by
`server.rs`. -/
structure AdvancedBuildStep where
  context : String
  dockerfile : Option String
  deriving DecidableEq, Repr

/-- `docker_compose_types::BuildStep`: a simple context path or an advanced
build step. -/
inductive BuildStep where
  | Simple (context : String)
  | Advanced (build : AdvancedBuildStep)
  deriving DecidableEq, Repr

/-- `docker_compose_types::Service` — the fields read by `server.rs`
(`build_`, `image`, `environment`). -/
structure ComposeService where
  build_ : Option BuildStep
  image : Option String
  environment : Environment
  deriving DecidableEq, Repr

/-- `WorkspaceServer::build_compose_service` (server.rs:596-623).  The
underlying container builds (`build_container_image`,
`build_container_image_from_base`) are I/O and are abstracted as
succeeding — the claims about `build_compose` condition on a successful
build — so the only failure this function itself introduces is the
missing-build-and-image case. -/
def build_compose_service (service : ComposeService) : Except ApiError Unit :=
  match service.build_ with
  | some _ => Except.ok ()
  | none =>
      match service.image with
      | some _ => Except.ok ()
      | none => Except.error (ApiError.RepositoryInvalid
          "can't find image or build in this compose service")

/-- The service-iteration loop of `WorkspaceServer::build_compose`
(server.rs:640-653): null services are skipped, each non-null service is
built under the tag `{tag}:{name}` and contributes one manifest entry. -/
def build_compose_loop (tag : String) :
    List (String × Option ComposeService) → Except ApiError (List RepoComposeService)
  | [] => Except.ok []
  | (name, serviceOpt) :: rest =>
      match serviceOpt with
      | none => build_compose_loop tag rest
      | some service =>
          let serviceTag := tag ++ ":" ++ name
          match build_compose_service service with
          | Except.error e => Except.error e
          | Except.ok () =>
              let env := compose_service_env service.environment
              match build_compose_loop tag rest with
              | Except.error e => Except.error e
              | Except.ok restServices =>
                  Except.ok ({ name := name, image := serviceTag, env := env } :: restServices)

/-- `WorkspaceServer::build_compose` (server.rs:625-655), from the parsed
compose document onward: `compose.services.0` is the ordered
`(name, Option<Service>)` list of the input (indexmap insertion order).
The file-read/YAML-parse preamble is not modelled. -/
def build_compose (services : List (String × Option ComposeService)) (tag : String) :
    Except ApiError RepoBuildOutput :=
  match build_compose_loop tag services with
  | Except.ok list => Except.ok (RepoBuildOutput.Compose list)
  | Except.error e => Except.error e

lemma build_compose_service_ok (s : ComposeService)
    (hs : s.build_.isSome ∨ s.image.isSome) :
    build_compose_service s = Except.ok () := by
  obtain ⟨b, i, e⟩ := s
  cases b <;> cases i <;> simp_all [build_compose_service]

lemma build_compose_loop_ok (tag : String)
    (services : List (String × Option ComposeService))
    (h : ∀ name s, (name, some s) ∈ services → s.build_.isSome ∨ s.image.isSome) :
    build_compose_loop tag services = Except.ok
      (services.filterMap fun p => p.2.map fun s =>
        { name := p.1, image := tag ++ ":" ++ p.1,
          env := compose_service_env s.environment }) := by
  induction services with
  | nil => rfl
  | cons p rest ih =>
      have hrest : ∀ name s, (name, some s) ∈ rest → s.build_.isSome ∨ s.image.isSome :=
        fun name s hm => h name s (List.mem_cons_of_mem p hm)
      obtain ⟨name, sOpt⟩ := p
      cases sOpt with
      | none => simpa [build_compose_loop] using ih hrest
      | some s =>
          have hs := h name s (List.mem_cons_self _ _)
          simp [build_compose_loop, build_compose_service_ok s hs, ih hrest]

lemma build_compose_loop_error (tag : String)
    (services : List (String × Option ComposeService))
    (h : ∃ name s, (name, some s) ∈ services ∧ s.build_ = none ∧ s.image = none) :
    build_compose_loop tag services = Except.error (ApiError.RepositoryInvalid
      "can't find image or build in this compose service") := by
  induction services with
  | nil => simp at h
  | cons p rest ih =>
      obtain ⟨pname, sOpt⟩ := p
      obtain ⟨name, s, hmem, hb, hi⟩ := h
      rcases List.mem_cons.1 hmem with hhead | htail
      · have h1 : pname = name := congrArg Prod.fst hhead.symm
        have h2 : sOpt = some s := congrArg Prod.snd hhead.symm
        subst h1
        subst h2
        simp [build_compose_loop, build_compose_service, hb, hi]
      · have hrest := ih ⟨name, s, htail, hb, hi⟩
        cases sOpt with
        | none => simpa [build_compose_loop] using hrest
        | some s' =>
            obtain ⟨b', i', e'⟩ := s'
            cases hb' : b' <;> cases hi' : i' <;>
              simp_all [build_compose_loop, build_compose_service]

/-- **C5** (amended).  For every successful compose build, the emitted
`Compose` manifest has exactly one service entry per non-null service of
the input document, in the input's insertion order, each tagged
`{base-tag}:{service-name}`; and a non-null service with neither a build
nor an image fails the whole build with
`RepositoryInvalid("can't find image or build in this compose service")`
(the code's message extends the one quoted in the claim). -/
theorem build_compose_spec (services : List (String × Option ComposeService))
    (tag : String) :
    ((∀ name s, (name, some s) ∈ services → s.build_.isSome ∨ s.image.isSome) →
      build_compose services tag = Except.ok (RepoBuildOutput.Compose
        (services.filterMap fun p => p.2.map fun s =>
          { name := p.1, image := tag ++ ":" ++ p.1,
            env := compose_service_env s.environment }))) ∧
    ((∃ name s, (name, some s) ∈ services ∧ s.build_ = none ∧ s.image = none) →
      build_compose services tag = Except.error (ApiError.RepositoryInvalid
        "can't find image or build in this compose service")) := by
  constructor
  · intro h
    simp [build_compose, build_compose_loop_ok tag services h]
  · intro h
    simp [build_compose, build_compose_loop_error tag services h]

theorem build_compose_spec_witness :
    build_compose
      [("app", some ⟨some (BuildStep.Simple "./app"), none, Environment.list []⟩),
       ("db", some ⟨none, some "postgres:15", Environment.list []⟩)] "base" =
      Except.ok (RepoBuildOutput.Compose
        [⟨"app", "base:app", []⟩, ⟨"db", "base:db", []⟩]) := by
  have h := (build_compose_spec
      [("app", some ⟨some (BuildStep.Simple "./app"), none, Environment.list []⟩),
       ("db", some ⟨none, some "postgres:15", Environment.list []⟩)] "base").1
      (by intro name s hm
          simp only [List.mem_cons, List.not_mem_nil, or_false] at hm
          rcases hm with hm | hm <;> · cases Prod.mk.injEq .. ▸ hm with
            | _ => simp_all)
  simpa using h

/-- **C5** counterexample to the claim as stated: at a concrete compose
document with one service lacking both `build` and `image`, the build fails
with the message `"can't find image or build in this compose service"`,
not the claim's `"can't find image or build"`. -/
theorem build_compose_error_message_counterexample :
    build_compose [("app", some ⟨none, none, Environment.list []⟩)] "t" =
      Except.error (ApiError.RepositoryInvalid
        "can't find image or build in this compose service") ∧
    build_compose [("app", some ⟨none, none, Environment.list []⟩)] "t" ≠
      Except.error (ApiError.RepositoryInvalid "can't find image or build") := by
  constructor
  · rfl
  · intro hcontra
    have h1 : build_compose [("app", some ⟨none, none, Environment.list []⟩)] "t" =
        Except.error (ApiError.RepositoryInvalid
          "can't find image or build in this compose service") := rfl
    rw [h1] at hcontra
    injection hcontra with h2
    injection h2 with h3
    exact absurd h3 (by decide)

/-- **C2.** Lifecycle-command dispatch on `RepoBuildOutput::Image` with an
object-form command returns the invalid-lifecycle error (`anyhow!("can't
use object cmd for non compose")`, the error the spec calls
`InvalidLifecycle`), and no container-engine `run` command line is executed
for that phase. -/
theorem run_lifecycle_command_object_on_image (info : RepoBuildInfo) (tag : String)
    (config : DevContainerConfig) (cmds : List (String × DevContainerCmd)) :
    run_lifecycle_command info (RepoBuildOutput.Image tag) config
        (DevContainerLifeCycleCmd.Object cmds) =
      (Except.error "can't use object cmd for non compose", []) := rfl

/-- **C7.** `run_lifecycle_commands` attempts the phases in the strict
order `onCreate`, `updateContent`, `postCreate`, skipping any phase whose
command is absent, and does so for every possible runner outcome — in
particular a runner failing on an earlier phase does not stop the later
phases from running. -/
theorem run_lifecycle_commands_spec
    (runner : DevContainerLifeCycleCmd → Except String Unit)
    (config : DevContainerConfig) :
    run_lifecycle_commands runner config =
      config.on_create_command.toList ++ config.update_content_command.toList ++
        config.post_create_command.toList := by
  unfold run_lifecycle_commands
  rcases config with ⟨service, onCreate, updateContent, postCreate⟩
  cases onCreate <;> cases updateContent <;> cases postCreate <;> simp

/-- **C3.** `compose_service_env`: in the list form an entry is split on the
first `'='` (so `"A="` yields `("A", "")`, `"A=B=C"` yields `("A", "B=C")`,
and an entry with no `'='` is dropped); in the mapping form keys with null
values are dropped and scalar values are stringified; input order is
preserved in the result (both forms are homomorphic over append). -/
theorem compose_service_env_spec :
    compose_service_env (Environment.list ["A="]) = [("A", "")] ∧
    compose_service_env (Environment.list ["A=B=C"]) = [("A", "B=C")] ∧
    compose_service_env (Environment.list ["A"]) = [] ∧
    (∀ k v : String, '=' ∉ k.toList →
      compose_service_env (Environment.list [k ++ "=" ++ v]) = [(k, v)]) ∧
    (∀ s : String, '=' ∉ s.toList →
      compose_service_env (Environment.list [s]) = []) ∧
    (∀ l₁ l₂ : List String,
      compose_service_env (Environment.list (l₁ ++ l₂)) =
        compose_service_env (Environment.list l₁) ++
          compose_service_env (Environment.list l₂)) ∧
    (∀ (pre post : List (String × Option String)) (k : String),
      compose_service_env (Environment.kvPair (pre ++ (k, none) :: post)) =
        compose_service_env (Environment.kvPair pre) ++
          compose_service_env (Environment.kvPair post)) ∧
    (∀ (pre post : List (String × Option String)) (k v : String),
      compose_service_env (Environment.kvPair (pre ++ (k, some v) :: post)) =
        compose_service_env (Environment.kvPair pre) ++
          (k, v) :: compose_service_env (Environment.kvPair post)) := by
  refine ⟨by decide, by decide, by decide, ?_, ?_, ?_, ?_, ?_⟩
  · intro k v hk
    have hsplit : splitEnvEntry (k ++ "=" ++ v) = some (k, v) := by
      unfold splitEnvEntry
      rw [toList_append_eq, splitFirstEq_append_eq k.toList v.toList hk]
      simp [mk_toList]
    simp [compose_service_env, hsplit]
  · intro s hs
    have hsplit : splitEnvEntry s = none := by
      unfold splitEnvEntry
      rw [splitFirstEq_no_eq s.toList hs]
    simp [compose_service_env, hsplit]
  · intro l₁ l₂
    simp [compose_service_env, List.filterMap_append]
  · intro pre post k
    simp [compose_service_env, List.filterMap_append]
  · intro pre post k v
    simp [compose_service_env, List.filterMap_append]

theorem compose_service_env_spec_witness :
    compose_service_env (Environment.list ["KEY" ++ "=" ++ "a=b"]) = [("KEY", "a=b")] :=
  compose_service_env_spec.2.2.2.1 "KEY" "a=b" (by decide)

/-- One observable side effect of `do_build_container_image`, in program
order.  The temp Dockerfile's content records the appended guest-agent
suffix; the install script and guest agent are compile-time blobs, so their
write events record only the destination path. -/
inductive BuildEvent where
  | writeTempDockerfile (path : String) (content : String)
  | writeInstallScript (path : String)
  | writeGuestAgent (path : String)
  | chown (owner : String) (path : String)
  | runBuild (command : String)
  | removeFile (path : String)
  deriving DecidableEq, Repr

/-- The fixed Dockerfile suffix `do_build_container_image` appends after
the user Dockerfile (server.rs:362-377). -/
def guest_agent_suffix : String :=
  "\nUSER root\n" ++
  "COPY lapdev-guest-agent /lapdev-guest-agent\n" ++
  "RUN chmod +x /lapdev-guest-agent\n" ++
  "COPY install_guest_agent.sh /install_guest_agent.sh\n" ++
  "RUN sh /install_guest_agent.sh\n" ++
  "RUN rm /install_guest_agent.sh\n"

/-- The shell command `do_build_container_image` hands to
`su - {osuser} -c` (server.rs:415-426). -/
def podman_build_command (info : RepoBuildInfo) (cwd context temp tag : String) :
    String :=
  let build_args := String.intercalate " "
    (info.env.map fun nv => "--build-arg " ++ nv.1 ++ "=" ++ nv.2)
  "cd " ++ cwd ++ " && podman build --no-cache " ++ build_args ++
    " --cpuset-cpus " ++ String.intercalate "," (info.cpus.map toString) ++
    " -m " ++ toString info.memory ++ "g -f " ++ temp ++ " -t " ++ tag ++
    " " ++ context

/-- `WorkspaceServer::do_build_container_image` (server.rs:347-446) as its
result together with its ordered trace of side effects.  `temp` is the
fresh temp-file path chosen by `NamedTempFile`; `buildOk` abstracts the
engine subprocess's exit status; the captured stderr text in the failure
message and the streaming of output are not modelled. -/
def do_build_container_image (info : RepoBuildInfo) (cwd context : String)
    (dockerfile_content : String) (tag : String) (temp : String)
    (buildOk : Bool) : Except ApiError Unit × List BuildEvent :=
  let install_script_path := context ++ "/install_guest_agent.sh"
  let lapdev_guest_agent_path := context ++ "/lapdev-guest-agent"
  let events :=
    [BuildEvent.writeTempDockerfile temp (dockerfile_content ++ guest_agent_suffix),
     BuildEvent.writeInstallScript install_script_path,
     BuildEvent.writeGuestAgent lapdev_guest_agent_path,
     BuildEvent.chown (info.osuser ++ ":" ++ info.osuser) install_script_path,
     BuildEvent.chown (info.osuser ++ ":" ++ info.osuser) temp,
     BuildEvent.runBuild (podman_build_command info cwd context temp tag)]
  if buildOk then
    (Except.ok (),
     events ++ [BuildEvent.removeFile install_script_path,
                BuildEvent.removeFile lapdev_guest_agent_path])
  else
    (Except.error (ApiError.RepositoryInvalid "Container Image build failed"),
     events)

lemma append_ne_of_ne (a : String) {b c : String} (h : b ≠ c) : a ++ b ≠ a ++ c := by
  intro hc
  apply h
  have hdata : (a ++ b).data = (a ++ c).data := congrArg String.data hc
  rw [String.data_append, String.data_append] at hdata
  exact String.ext (List.append_cancel_left hdata)

/-- **C1** (amended).  `do_build_container_image` writes the guest-agent
binary and the install script into the build context directory and, before
the container engine is invoked, chowns the install script and the
temporary Dockerfile to `{osuser}:{osuser}`; the guest-agent binary itself
is never chowned (the temp-file path is fresh, hence distinct from the
guest-agent path). -/
theorem do_build_container_image_spec (info : RepoBuildInfo)
    (cwd context dockerfile_content tag temp : String) (buildOk : Bool)
    (htemp : temp ≠ context ++ "/lapdev-guest-agent") :
    ∃ pre post,
      (do_build_container_image info cwd context dockerfile_content tag temp buildOk).2 =
        pre ++ BuildEvent.runBuild (podman_build_command info cwd context temp tag) :: post ∧
      BuildEvent.writeInstallScript (context ++ "/install_guest_agent.sh") ∈ pre ∧
      BuildEvent.writeGuestAgent (context ++ "/lapdev-guest-agent") ∈ pre ∧
      BuildEvent.chown (info.osuser ++ ":" ++ info.osuser)
        (context ++ "/install_guest_agent.sh") ∈ pre ∧
      BuildEvent.chown (info.osuser ++ ":" ++ info.osuser) temp ∈ pre ∧
      (∀ owner, BuildEvent.chown owner (context ++ "/lapdev-guest-agent") ∉
        (do_build_container_image info cwd context dockerfile_content tag temp buildOk).2) := by
  have hne1 : context ++ "/lapdev-guest-agent" ≠ context ++ "/install_guest_agent.sh" :=
    append_ne_of_ne context (by decide)
  have hne2 : context ++ "/lapdev-guest-agent" ≠ temp := fun h => htemp h.symm
  cases buildOk with
  | true =>
      refine ⟨[BuildEvent.writeTempDockerfile temp (dockerfile_content ++ guest_agent_suffix),
          BuildEvent.writeInstallScript (context ++ "/install_guest_agent.sh"),
          BuildEvent.writeGuestAgent (context ++ "/lapdev-guest-agent"),
          BuildEvent.chown (info.osuser ++ ":" ++ info.osuser)
            (context ++ "/install_guest_agent.sh"),
          BuildEvent.chown (info.osuser ++ ":" ++ info.osuser) temp],
        [BuildEvent.removeFile (context ++ "/install_guest_agent.sh"),
         BuildEvent.removeFile (context ++ "/lapdev-guest-agent")],
        rfl, by simp, by simp, by simp, by simp, ?_⟩
      intro owner hmem
      simp [do_build_container_image, hne1, hne2] at hmem
  | false =>
      refine ⟨[BuildEvent.writeTempDockerfile temp (dockerfile_content ++ guest_agent_suffix),
          BuildEvent.writeInstallScript (context ++ "/install_guest_agent.sh"),
          BuildEvent.writeGuestAgent (context ++ "/lapdev-guest-agent"),
          BuildEvent.chown (info.osuser ++ ":" ++ info.osuser)
            (context ++ "/install_guest_agent.sh"),
          BuildEvent.chown (info.osuser ++ ":" ++ info.osuser) temp],
        [], rfl, by simp, by simp, by simp, by simp, ?_⟩
      intro owner hmem
      simp [do_build_container_image, hne1, hne2] at hmem

theorem do_build_container_image_spec_witness :
    ∃ pre post,
      (do_build_container_image
        { target := BuildTarget.Workspace "w1", osuser := "alice", repo_name := "proj",
          cpus := [0, 1], memory := 4, env := [] }
        "/cwd" "/ctx" "FROM scratch" "w1" "/tmp/.tmpdock" true).2 =
        pre ++ BuildEvent.runBuild (podman_build_command
          { target := BuildTarget.Workspace "w1", osuser := "alice", repo_name := "proj",
            cpus := [0, 1], memory := 4, env := [] }
          "/cwd" "/ctx" "/tmp/.tmpdock" "w1") :: post ∧
      BuildEvent.writeInstallScript ("/ctx" ++ "/install_guest_agent.sh") ∈ pre ∧
      BuildEvent.writeGuestAgent ("/ctx" ++ "/lapdev-guest-agent") ∈ pre ∧
      BuildEvent.chown ("alice" ++ ":" ++ "alice")
        ("/ctx" ++ "/install_guest_agent.sh") ∈ pre ∧
      BuildEvent.chown ("alice" ++ ":" ++ "alice") "/tmp/.tmpdock" ∈ pre ∧
      (∀ owner, BuildEvent.chown owner ("/ctx" ++ "/lapdev-guest-agent") ∉
        (do_build_container_image
          { target := BuildTarget.Workspace "w1", osuser := "alice", repo_name := "proj",
            cpus := [0, 1], memory := 4, env := [] }
          "/cwd" "/ctx" "FROM scratch" "w1" "/tmp/.tmpdock" true).2) :=
  do_build_container_image_spec
    { target := BuildTarget.Workspace "w1", osuser := "alice", repo_name := "proj",
      cpus := [0, 1], memory := 4, env := [] }
    "/cwd" "/ctx" "FROM scratch" "w1" "/tmp/.tmpdock" true (by decide)

/-- **C1** counterexample to the claim as stated: on a concrete build, the
event trace of `do_build_container_image` contains no chown of the
guest-agent binary written into the build context — only the install
script and the temp Dockerfile are chowned. -/
theorem do_build_container_image_chown_counterexample :
    BuildEvent.chown ("alice" ++ ":" ++ "alice") ("/ctx" ++ "/lapdev-guest-agent") ∉
      (do_build_container_image
        { target := BuildTarget.Workspace "w1", osuser := "alice", repo_name := "proj",
          cpus := [0, 1], memory := 4, env := [] }
        "/cwd" "/ctx" "FROM scratch" "w1" "/tmp/.tmpdock" true).2 := by
  decide

/-- One hex digit of serde_json's `\u00XX` control-character escape
(lowercase hex table). -/
def hexDigit (n : Nat) : Char :=
  match n with
  | 0 => '0' | 1 => '1' | 2 => '2' | 3 => '3'
  | 4 => '4' | 5 => '5' | 6 => '6' | 7 => '7'
  | 8 => '8' | 9 => '9' | 10 => 'a' | 11 => 'b'
  | 12 => 'c' | 13 => 'd' | 14 => 'e' | _ => 'f'

/-- serde_json's escaping of one character inside a JSON string: quote and
backslash get a backslash, the named control characters get their short
escapes, other control characters become `\u00XX`, everything else is
itself. -/
def jsonEscapeChar (c : Char) : List Char :=
  if c = '"' then ['\\', '"']
  else if c = '\\' then ['\\', '\\']
  else if c.toNat = 8 then ['\\', 'b']
  else if c.toNat = 12 then ['\\', 'f']
  else if c.toNat = 10 then ['\\', 'n']
  else if c.toNat = 13 then ['\\', 'r']
  else if c.toNat = 9 then ['\\', 't']
  else if c.toNat < 32 then
    ['\\', 'u', '0', '0', hexDigit (c.toNat / 16), hexDigit (c.toNat % 16)]
  else [c]

/-- serde_json's serialization of one string. -/
def json_string (s : List Char) : List Char :=
  '"' :: (s.flatMap jsonEscapeChar ++ ['"'])

/-- The comma-separated items of a serialized JSON array. -/
def json_string_items : List (List Char) → List Char
  | [] => []
  | [s] => json_string s
  | s :: rest => json_string s ++ ',' :: json_string_items rest

/-- `serde_json::to_string` of a `Vec<String>` (always succeeds; the code's
`if let Ok(..)` never takes the failure branch). -/
def json_string_array (l : List (List Char)) : List Char :=
  '[' :: (json_string_items l ++ [']'])

/-- `ContainerImageInfo.config` — the subset of the engine's image-inspect
response read by `build_container_image_from_base`: entrypoint and cmd as
optional argv lists, exposed ports by their keys (in iteration order of the
map). -/
structure ContainerImageConfig where
  entrypoint : Option (List (List Char))
  cmd : Option (List (List Char))
  exposed_ports : Option (List (List Char))
  deriving DecidableEq, Repr

/-- The Dockerfile-synthesis part of
`WorkspaceServer::build_container_image_from_base` (server.rs:461-487):
`FROM {image}\n`, then `ENTRYPOINT <json-array>\n` when the inspected
entrypoint is present and non-empty, `CMD <json-array>\n` likewise, and one
`EXPOSE <port>\n` per exposed-ports key. -/
def base_image_dockerfile (image : List Char) (cfg : ContainerImageConfig) :
    List Char :=
  let d := "FROM ".toList ++ image ++ ['\n']
  let d := match cfg.entrypoint with
    | some entrypoint =>
        if entrypoint ≠ [] then
          d ++ "ENTRYPOINT ".toList ++ json_string_array entrypoint ++ ['\n']
        else d
    | none => d
  let d := match cfg.cmd with
    | some cmd =>
        if cmd ≠ [] then d ++ "CMD ".toList ++ json_string_array cmd ++ ['\n']
        else d
    | none => d
  match cfg.exposed_ports with
  | some ports =>
      ports.foldl (fun acc port => acc ++ "EXPOSE ".toList ++ port ++ ['\n']) d
  | none => d

/-- Splits a character list on `'\n'` into lines (a trailing newline
yields a final empty line). -/
def splitNl : List Char → List (List Char)
  | [] => [[]]
  | c :: rest =>
      if c = '\n' then [] :: splitNl rest
      else
        match splitNl rest with
        | l :: ls => (c :: l) :: ls
        | [] => [[c]]

/-- The `ENTRYPOINT` lines the spec expects in the synthesized Dockerfile:
one exactly when the inspected entrypoint is present and non-empty. -/
def entryLines (cfg : ContainerImageConfig) : List (List Char) :=
  match cfg.entrypoint with
  | some e => if e ≠ [] then ["ENTRYPOINT ".toList ++ json_string_array e] else []
  | none => []

/-- The `CMD` lines the spec expects: one exactly when the inspected cmd is
present and non-empty. -/
def cmdLines (cfg : ContainerImageConfig) : List (List Char) :=
  match cfg.cmd with
  | some c => if c ≠ [] then ["CMD ".toList ++ json_string_array c] else []
  | none => []

/-- The `EXPOSE` lines the spec expects: one per exposed-ports key. -/
def exposeLines (cfg : ContainerImageConfig) : List (List Char) :=
  (cfg.exposed_ports.getD []).map fun p => "EXPOSE ".toList ++ p

lemma hexDigit_ne_nl (n : Nat) : hexDigit n ≠ '\n' := by
  unfold hexDigit
  split <;> decide

lemma nl_not_mem_jsonEscapeChar (c : Char) : '\n' ∉ jsonEscapeChar c := by
  unfold jsonEscapeChar
  split_ifs with h1 h2 h3 h4 h5 h6 h7 h8
  · decide
  · decide
  · decide
  · decide
  · decide
  · decide
  · decide
  · simp only [List.mem_cons, List.not_mem_nil, or_false]
    push_neg
    exact ⟨by decide, by decide, by decide, by decide,
      fun h => hexDigit_ne_nl _ h.symm, fun h => hexDigit_ne_nl _ h.symm⟩
  · simp only [List.mem_singleton]
    intro h
    exact h5 (h ▸ (by decide : ('\n').toNat = 10))

lemma nl_not_mem_json_string (s : List Char) : '\n' ∉ json_string s := by
  unfold json_string
  simp only [List.mem_cons, List.mem_append, List.mem_singleton]
  rintro (h | h | h)
  · exact absurd h (by decide)
  · obtain ⟨c, _, hc⟩ := List.mem_flatMap.mp h
    exact nl_not_mem_jsonEscapeChar c hc
  · exact absurd h (by decide)

lemma nl_not_mem_json_string_items (l : List (List Char)) :
    '\n' ∉ json_string_items l := by
  induction l with
  | nil => simp [json_string_items]
  | cons s rest ih =>
      cases rest with
      | nil => simpa [json_string_items] using nl_not_mem_json_string s
      | cons t ts =>
          simp only [json_string_items, List.mem_append, List.mem_cons]
          rintro (h | h | h)
          · exact nl_not_mem_json_string s h
          · exact absurd h (by decide)
          · exact ih h

lemma nl_not_mem_json_string_array (l : List (List Char)) :
    '\n' ∉ json_string_array l := by
  unfold json_string_array
  simp only [List.mem_cons, List.mem_append, List.mem_singleton]
  rintro (h | h | h)
  · exact absurd h (by decide)
  · exact nl_not_mem_json_string_items l h
  · exact absurd h (by decide)

lemma splitNl_line (a b : List Char) (ha : '\n' ∉ a) :
    splitNl (a ++ '\n' :: b) = a :: splitNl b := by
  induction a with
  | nil => simp [splitNl]
  | cons c rest ih =>
      have hc : c ≠ '\n' := fun h => ha (h ▸ List.mem_cons_self c rest)
      have hrest : '\n' ∉ rest := fun h => ha (List.mem_cons_of_mem c h)
      simp [splitNl, hc, ih hrest]

lemma splitNl_joinlines (lines : List (List Char)) (rest : List Char)
    (h : ∀ l ∈ lines, '\n' ∉ l) :
    splitNl ((lines.flatMap fun l => l ++ ['\n']) ++ rest) = lines ++ splitNl rest := by
  induction lines with
  | nil => simp
  | cons l ls ih =>
      have hl := h l (List.mem_cons_self _ _)
      have hls : ∀ x ∈ ls, '\n' ∉ x := fun x hx => h x (List.mem_cons_of_mem _ hx)
      have hstep : (((l :: ls).flatMap fun x => x ++ ['\n']) ++ rest) =
          l ++ '\n' :: ((ls.flatMap fun x => x ++ ['\n']) ++ rest) := by
        simp [List.append_assoc]
      rw [hstep, splitNl_line _ _ hl, ih hls, List.cons_append]

lemma foldl_expose (ports : List (List Char)) (d : List Char) :
    ports.foldl (fun acc port => acc ++ "EXPOSE ".toList ++ port ++ ['\n']) d =
      d ++ ports.flatMap fun p => "EXPOSE ".toList ++ p ++ ['\n'] := by
  induction ports generalizing d with
  | nil => simp
  | cons p ps ih =>
      rw [List.foldl_cons, ih, List.flatMap_cons]
      simp [List.append_assoc]

lemma base_image_dockerfile_eq (image : List Char) (cfg : ContainerImageConfig) :
    base_image_dockerfile image cfg =
      ((("FROM ".toList ++ image) :: (entryLines cfg ++ cmdLines cfg ++ exposeLines cfg)).flatMap
        fun l => l ++ ['\n']) := by
  obtain ⟨e, c, p⟩ := cfg
  cases e <;> cases c <;> cases p
  all_goals
    simp only [base_image_dockerfile, entryLines, cmdLines, exposeLines,
      Option.getD_some, Option.getD_none, List.map_nil]
  all_goals try rw [foldl_expose]
  all_goals try split_ifs
  all_goals simp [List.append_assoc, List.flatMap_map]

lemma nl_not_mem_entryLines (cfg : ContainerImageConfig) :
    ∀ l ∈ entryLines cfg, '\n' ∉ l := by
  obtain ⟨e, c, p⟩ := cfg
  cases e with
  | none => simp [entryLines]
  | some e =>
      by_cases he : e = []
      · simp [entryLines, he]
      · intro l hl
        have heq : entryLines ⟨some e, c, p⟩ =
            ["ENTRYPOINT ".toList ++ json_string_array e] := by
          simp [entryLines, he]
        rw [heq] at hl
        simp only [List.mem_singleton] at hl
        subst hl
        simp only [List.mem_append]
        rintro (h | h)
        · exact absurd h (by decide)
        · exact nl_not_mem_json_string_array e h

lemma nl_not_mem_cmdLines (cfg : ContainerImageConfig) :
    ∀ l ∈ cmdLines cfg, '\n' ∉ l := by
  obtain ⟨e, c, p⟩ := cfg
  cases c with
  | none => simp [cmdLines]
  | some c =>
      by_cases hc : c = []
      · simp [cmdLines, hc]
      · intro l hl
        have heq : cmdLines ⟨e, some c, p⟩ =
            ["CMD ".toList ++ json_string_array c] := by
          simp [cmdLines, hc]
        rw [heq] at hl
        simp only [List.mem_singleton] at hl
        subst hl
        simp only [List.mem_append]
        rintro (h | h)
        · exact absurd h (by decide)
        · exact nl_not_mem_json_string_array c h

lemma nl_not_mem_exposeLines (cfg : ContainerImageConfig)
    (hports : ∀ p ∈ cfg.exposed_ports.getD [], '\n' ∉ p) :
    ∀ l ∈ exposeLines cfg, '\n' ∉ l := by
  intro l hl
  unfold exposeLines at hl
  obtain ⟨p, hp, rfl⟩ := List.mem_map.mp hl
  simp only [List.mem_append]
  rintro (h | h)
  · exact absurd h (by decide)
  · exact hports p hp h

/-- **C6.** The synthesized base-image Dockerfile, split into lines, is
exactly: `FROM {image}`, then one `ENTRYPOINT <json-array>` line exactly
when the inspected entrypoint is present and non-empty, one
`CMD <json-array>` line exactly when the inspected cmd is present and
non-empty, and one `EXPOSE <port>` line per key of the exposed-ports map
(plus the empty line after the final newline).  Hypotheses: the image
reference and the port keys contain no newline. -/
theorem base_image_dockerfile_spec (image : List Char) (cfg : ContainerImageConfig)
    (himg : '\n' ∉ image)
    (hports : ∀ p ∈ cfg.exposed_ports.getD [], '\n' ∉ p) :
    splitNl (base_image_dockerfile image cfg) =
      ("FROM ".toList ++ image) ::
        (entryLines cfg ++ cmdLines cfg ++ exposeLines cfg) ++ [[]] := by
  rw [base_image_dockerfile_eq]
  have h : ∀ l ∈ ("FROM ".toList ++ image) ::
      (entryLines cfg ++ cmdLines cfg ++ exposeLines cfg), '\n' ∉ l := by
    intro l hl
    rcases List.mem_cons.mp hl with rfl | hl
    · simp only [List.mem_append]
      rintro (h | h)
      · exact absurd h (by decide)
      · exact himg h
    · rcases List.mem_append.mp hl with hl | hl
      · rcases List.mem_append.mp hl with hl | hl
        · exact nl_not_mem_entryLines cfg l hl
        · exact nl_not_mem_cmdLines cfg l hl
      · exact nl_not_mem_exposeLines cfg hports l hl
  have := splitNl_joinlines _ [] h
  simpa [splitNl] using this

theorem base_image_dockerfile_spec_witness :
    splitNl (base_image_dockerfile "docker.io/library/ubuntu:22.04".toList
      { entrypoint := some ["/bin/bash".toList], cmd := some ["-l".toList],
        exposed_ports := some ["22/tcp".toList, "8080/tcp".toList] }) =
      ["FROM docker.io/library/ubuntu:22.04".toList,
       "ENTRYPOINT [\"/bin/bash\"]".toList,
       "CMD [\"-l\"]".toList,
       "EXPOSE 22/tcp".toList,
       "EXPOSE 8080/tcp".toList,
       []] := by
  have h := base_image_dockerfile_spec "docker.io/library/ubuntu:22.04".toList
      { entrypoint := some ["/bin/bash".toList], cmd := some ["-l".toList],
        exposed_ports := some ["22/tcp".toList, "8080/tcp".toList] }
      (by decide) (by decide)
  rw [h]
  decide

/-- One running workspace as seen by the activity probe: the fields of the
Conductor's workspace record read by `run_task` (server.rs:188-220).  The
workspace id (a UUID) is modelled by its string rendering and the
`last_inactivity` timestamp by a natural number. -/
structure WorkspaceInfo where
  id : String
  ssh_port : Option Int
  ide_port : Option Int
  last_inactivity : Option Nat
  deriving DecidableEq, Repr

/-- The `active` computation of `run_task` (server.rs:189-195): start from
`false` and or-in membership of each present port in the established-TCP
local-port set. -/
def workspace_active (established : List Int) (w : WorkspaceInfo) : Bool :=
  let active := false
  let active := match w.ssh_port with
    | some port => active || established.contains port
    | none => active
  match w.ide_port with
  | some port => active || established.contains port
  | none => active

/-- The per-workspace transition of `run_task` (server.rs:197-219):
`some v` means one `update_workspace_last_inactivity(id, v)` RPC is made,
`none` means no RPC for this workspace on this tick. -/
def workspace_tick_update (established : List Int) (now : Nat) (w : WorkspaceInfo) :
    Option (Option Nat) :=
  if workspace_active established w then
    if w.last_inactivity.isSome then some none else none
  else
    if w.last_inactivity.isNone then some (some now) else none

/-- The workspace loop of `WorkspaceServer::run_task` (server.rs:188-220):
the list of `update_workspace_last_inactivity` calls `(id, new_value)` made
during one tick, in order. -/
def run_task (established : List Int) (now : Nat) :
    List WorkspaceInfo → List (String × Option Nat)
  | [] => []
  | w :: rest =>
      (match workspace_tick_update established now w with
        | some v => [(w.id, v)]
        | none => []) ++ run_task established now rest

/-- The spec-side activity predicate:
`active = (ssh_port ∈ established) ∨ (ide_port ∈ established)`. -/
def activeSpec (established : List Int) (w : WorkspaceInfo) : Prop :=
  (∃ p, w.ssh_port = some p ∧ p ∈ established) ∨
    (∃ p, w.ide_port = some p ∧ p ∈ established)

lemma workspace_active_iff (established : List Int) (w : WorkspaceInfo) :
    workspace_active established w = true ↔ activeSpec established w := by
  obtain ⟨i, sp, ip, li⟩ := w
  cases sp <;> cases ip <;>
    simp [workspace_active, activeSpec]

/-- **C4.** For every activity-probe tick and every running workspace, with
`active = (ssh_port ∈ established) ∨ (ide_port ∈ established)`: if active
and `last_inactivity` is present, exactly one
`update_workspace_last_inactivity(id, None)` call is made; if not active
and `last_inactivity` is absent, exactly one
`update_workspace_last_inactivity(id, Some(now))` call is made; in the
other two combinations no call is made; and re-ticking with identical TCP
state after the update is a no-op.  The tick processes each workspace
independently (the calls of a tick are the concatenation of the
per-workspace calls). -/
theorem run_task_spec (established : List Int) (now : Nat) :
    (∀ ws₁ ws₂, run_task established now (ws₁ ++ ws₂) =
      run_task established now ws₁ ++ run_task established now ws₂) ∧
    (∀ w : WorkspaceInfo, activeSpec established w → w.last_inactivity.isSome →
      run_task established now [w] = [(w.id, none)]) ∧
    (∀ w : WorkspaceInfo, activeSpec established w → w.last_inactivity = none →
      run_task established now [w] = []) ∧
    (∀ w : WorkspaceInfo, ¬ activeSpec established w → w.last_inactivity = none →
      run_task established now [w] = [(w.id, some now)]) ∧
    (∀ w : WorkspaceInfo, ¬ activeSpec established w → w.last_inactivity.isSome →
      run_task established now [w] = []) ∧
    (∀ (w : WorkspaceInfo) (v : Option Nat),
      workspace_tick_update established now w = some v →
      workspace_tick_update established now { w with last_inactivity := v } = none) := by
  have hact : ∀ w : WorkspaceInfo, workspace_active established w = true ↔
      activeSpec established w := fun w => workspace_active_iff established w
  refine ⟨?_, ?_, ?_, ?_, ?_, ?_⟩
  · intro ws₁ ws₂
    induction ws₁ with
    | nil => rfl
    | cons w rest ih => simp [run_task, ih]
  · intro w hw hli
    have h : workspace_active established w = true := (hact w).2 hw
    simp [run_task, workspace_tick_update, h, hli]
  · intro w hw hli
    have h : workspace_active established w = true := (hact w).2 hw
    simp [run_task, workspace_tick_update, h, hli]
  · intro w hw hli
    have h : workspace_active established w = false := by
      rcases hb : workspace_active established w with _ | _
      · rfl
      · exact absurd ((hact w).1 hb) hw
    simp [run_task, workspace_tick_update, h, hli]
  · intro w hw hli
    have h : workspace_active established w = false := by
      rcases hb : workspace_active established w with _ | _
      · rfl
      · exact absurd ((hact w).1 hb) hw
    obtain ⟨t, ht⟩ := Option.isSome_iff_exists.mp hli
    simp [run_task, workspace_tick_update, h, ht]
  · intro w v hv
    have hsame : workspace_active established { w with last_inactivity := v } =
        workspace_active established w := rfl
    unfold workspace_tick_update at hv ⊢
    rw [hsame]
    rcases hb : workspace_active established w with _ | _ <;> rw [hb] at hv
    · rcases hli : w.last_inactivity with _ | t <;> rw [hli] at hv
      · simp only [Option.isNone_none, if_true] at hv
        obtain rfl : some now = v := by injection hv
        simp [hb]
      · simp at hv
    · rcases hli : w.last_inactivity with _ | t <;> rw [hli] at hv
      · simp at hv
      · simp only [Option.isSome_some, if_true] at hv
        obtain rfl : (none : Option Nat) = v := by injection hv
        simp [hb]

theorem run_task_spec_witness :
    run_task [2200] 77
      [{ id := "w-1", ssh_port := some 2200, ide_port := none,
         last_inactivity := some 5 }] = [("w-1", none)] :=
  (run_task_spec [2200] 77).2.1
    { id := "w-1", ssh_port := some 2200, ide_port := none, last_inactivity := some 5 }
    (Or.inl ⟨2200, rfl, by decide⟩) rfl

/-- **C9.** `build_repo_folder(info)` equals
`/home/{osuser}/workspaces/{target}/{repo-name}`, with `{target}` the
workspace name for a `Workspace` target and the prebuild UUID rendered as a
string for a `Prebuild` target. -/
theorem build_repo_folder_spec (info : RepoBuildInfo) :
    (∀ name, info.target = BuildTarget.Workspace name →
      build_repo_folder info =
        "/home/" ++ info.osuser ++ "/workspaces/" ++ name ++ "/" ++ info.repo_name) ∧
    (∀ id, info.target = BuildTarget.Prebuild id →
      build_repo_folder info =
        "/home/" ++ info.osuser ++ "/workspaces/" ++ id ++ "/" ++ info.repo_name) := by
  constructor
  · intro name h
    simp [build_repo_folder, h]
  · intro id h
    simp [build_repo_folder, h]

theorem build_repo_folder_spec_witness :
    build_repo_folder
      { target := BuildTarget.Workspace "w1", osuser := "alice",
        repo_name := "proj", cpus := [0, 1], memory := 4, env := [] } =
      "/home/alice/workspaces/w1/proj" :=
  (build_repo_folder_spec
      { target := BuildTarget.Workspace "w1", osuser := "alice",
        repo_name := "proj", cpus := [0, 1], memory := 4, env := [] }).1
    "w1" rfl

/-- **C8.** `delete_image` succeeds exactly when the engine's DELETE on
`/images/{image}` yields status 200 or 404, and returns an error carrying
the response body for any other status. -/
theorem delete_image_spec (status : Nat) (body : String) :
    (delete_image status body = Except.ok () ↔ (status = 200 ∨ status = 404)) ∧
    (status ≠ 200 → status ≠ 404 →
      delete_image status body = Except.error ("delete image error: " ++ body)) := by
  constructor
  · constructor
    · intro h
      by_contra hc
      push_neg at hc
      simp [delete_image, hc.1, hc.2] at h
    · intro h
      rcases h with h | h <;> simp [delete_image, h]
  · intro h200 h404
    simp [delete_image, h200, h404]

theorem delete_image_spec_witness :
    delete_image 404 "gone" = Except.ok () ∧
    delete_image 500 "boom" = Except.error ("delete image error: " ++ "boom") :=
  ⟨(delete_image_spec 404 "gone").1.2 (Or.inr rfl),
   (delete_image_spec 500 "boom").2 (by decide) (by decide)⟩

end LapdevWs
